import Mathlib

/-!
Verification of the phonotaxis state-machine core.

This file gives a shallow embedding of the two core modules of the
repository:

* `phonotaxis/statemachine.py` — the PyQt-based runtime (`StateMachine`),
  modelled as a pure record `StateMachine` whose methods return either a
  plain updated record or `Except String (StateMachine × List Signal)`,
  where `Signal` records the PyQt signals emitted during the call
  (`stateChanged`, `outputChanged`, `integerOutput`, `eventProcessed`) as
  well as `warnings.warn` calls.  `time.time()` timestamps are passed in
  as an explicit rational parameter.  The single-shot Qt state timer is
  modelled by the field `state_timer : Option Int` holding the armed
  duration in milliseconds (`none` = stopped).

* `phonotaxis/statematrix.py` — the transition-matrix builder
  (`StateMatrix`), with Python dicts modelled as ordered association
  lists and Python lists as Lean lists.  Methods that can raise return
  `Except String _`.

All definitions are translated directly from the source; theorems about
them settle the specification claims.
-/

/-- Timer durations: a finite number of seconds or `float('inf')`. -/
inductive PTime where
  | fin (q : ℚ)
  | inf
deriving DecidableEq, Repr

/-- Observable effects of a runtime call: the PyQt signals emitted by
`StateMachine`, plus `warnings.warn`. -/
inductive Signal where
  | stateChanged (newState : Int)
  | outputChanged (outputIndex : Nat) (value : Bool)
  | integerOutput (value : Int)
  | eventProcessed (eventIndex : Int) (timestamp : ℚ) (newState : Int)
  | warning (msg : String)
deriving DecidableEq, Repr

/-- Does a signal match `eventProcessed`?  Used to count event-processed
notifications. -/
def isEP : Signal → Bool
  | Signal.eventProcessed _ _ _ => true
  | _ => false

/-- Does a signal match `outputChanged` for channel `j`? -/
def isOutFor (j : Nat) : Signal → Bool
  | Signal.outputChanged i _ => i == j
  | _ => false

/-- The mutable state of `statemachine.StateMachine`.  Fields are named
after the Python attributes; `None` becomes `Option.none`. -/
structure StateMachine where
  state_matrix : Option (List (List Int))
  state_timers : Option (List PTime)
  state_outputs : Option (List (List Int))
  integer_outputs : Option (List Int)
  timer_event_index : Option Int
  num_states : Nat
  num_inputs : Nat
  num_outputs : Nat
  current_state : Int
  is_running : Bool
  output_states : List Bool
  state_timer : Option Int
deriving DecidableEq, Repr

/-- `StateMachine.__init__`: the empty, unconfigured machine. -/
def StateMachine.initial : StateMachine :=
  { state_matrix := none, state_timers := none, state_outputs := none,
    integer_outputs := none, timer_event_index := none,
    num_states := 0, num_inputs := 0, num_outputs := 0,
    current_state := 0, is_running := false,
    output_states := [], state_timer := none }

/-- A nested list is a rectangular 2-D array (all rows of equal length),
as `np.array` requires. -/
def rect2 (l : List (List Int)) : Bool :=
  match l with
  | [] => true
  | r :: rs => rs.all (fun r2 => r2.length == r.length)

/-- Total number of elements, `np.ndarray.size` for a 2-D array. -/
def size2 (l : List (List Int)) : Nat := (l.map List.length).sum

/-- `StateMachine.set_state_matrix`. -/
def StateMachine.set_state_matrix (m : StateMachine) (state_matrix : List (List Int))
    (timer_event_index : Option Int) : Except String StateMachine :=
  if m.is_running then
    .error "Cannot modify state matrix while state machine is running"
  else if !rect2 state_matrix then
    .error "state_matrix could not be converted to a 2-dimensional array"
  else if size2 state_matrix == 0 then
    .error "State matrix cannot be empty"
  else
    let num_states := state_matrix.length
    let num_inputs := (state_matrix.headD []).length
    if !(state_matrix.all fun r => r.all fun v =>
          decide (0 ≤ v) && decide (v < (num_states : Int))) then
      .error "State matrix contains invalid state indices"
    else do
      let tei ← match timer_event_index with
        | none => Except.ok ((num_inputs : Int) - 1)
        | some t =>
            if 0 ≤ t ∧ t < (num_inputs : Int) then Except.ok t
            else Except.error "Timer event index out of range"
      let newTimers : List PTime :=
        match m.state_timers with
        | none => List.replicate num_states PTime.inf
        | some ts =>
            if ts.length == num_states then ts
            else ts.take num_states ++ List.replicate (num_states - ts.length) PTime.inf
      Except.ok { m with state_matrix := some state_matrix,
                         num_states := num_states, num_inputs := num_inputs,
                         timer_event_index := some tei,
                         state_timers := some newTimers }

/-- `StateMachine.set_state_timers`. -/
def StateMachine.set_state_timers (m : StateMachine) (state_timers : List PTime) :
    Except String StateMachine :=
  if m.is_running then
    .error "Cannot modify state timers while state machine is running"
  else if m.state_matrix.isSome && state_timers.length != m.num_states then
    .error "State timers must have same length as number of states"
  else .ok { m with state_timers := some state_timers }

/-- `StateMachine.set_state_outputs`. -/
def StateMachine.set_state_outputs (m : StateMachine) (state_outputs : List (List Int)) :
    Except String StateMachine :=
  if m.is_running then
    .error "Cannot modify state outputs while state machine is running"
  else if !rect2 state_outputs then
    .error "state_outputs could not be converted to a 2-dimensional array"
  else if state_outputs.isEmpty then
    .error "State outputs must be 2-dimensional"
  else if m.state_matrix.isSome && state_outputs.length != m.num_states then
    .error "State outputs must have same number of rows as state matrix"
  else
    let num_outputs := if size2 state_outputs == 0 then 0
                       else (state_outputs.headD []).length
    if !(state_outputs.all fun r => r.all fun v => v == -1 || v == 0 || v == 1) then
      .error "State outputs must contain only -1 (no change), 0 (off), or 1 (on)"
    else .ok { m with state_outputs := some state_outputs,
                      num_outputs := num_outputs,
                      output_states := List.replicate num_outputs false }

/-- `StateMachine.set_integer_outputs`: the Python method performs no
check at all, it just stores the array. -/
def StateMachine.set_integer_outputs (m : StateMachine) (integer_outputs : List Int) :
    StateMachine :=
  { m with integer_outputs := some integer_outputs }

/-- `StateMachine.is_configured`. -/
def StateMachine.is_configured (m : StateMachine) : Bool :=
  m.state_matrix.isSome && m.state_outputs.isSome && m.state_timers.isSome

/-- `StateMachine.start`. -/
def StateMachine.start (m : StateMachine) : Except String StateMachine :=
  if !m.is_configured then
    .error "State machine must be configured before starting."
  else
    .ok { m with is_running := true, current_state := (m.num_states : Int) - 1 }

/-- `StateMachine.stop`. -/
def StateMachine.stop (m : StateMachine) : StateMachine :=
  { m with is_running := false, state_timer := none }

/-- The per-output loop body of `_process_state_outputs`: walk the
current state's output directives together with `output_states`,
starting at absolute channel index `k`; return the updated
`output_states` and the `outputChanged` signals emitted.  Reading past
the end of `output_states` is Python's `IndexError`. -/
def applyOutputsFrom : Nat → List Int → List Bool → Except String (List Bool × List Signal)
  | _, [], os => .ok (os, [])
  | _, _ :: _, [] => .error "IndexError: list index out of range"
  | k, d :: ds, o :: os => do
      let (o2, here) :=
        if d == 0 then
          (if o then (false, [Signal.outputChanged k false]) else (o, []))
        else if d == 1 then
          (if o then (o, []) else (true, [Signal.outputChanged k true]))
        else (o, [])
      let (os2, rest) ← applyOutputsFrom (k + 1) ds os
      .ok (o2 :: os2, here ++ rest)

/-- `StateMachine._process_state_outputs`. -/
def StateMachine._process_state_outputs (m : StateMachine) :
    Except String (StateMachine × List Signal) :=
  match m.state_outputs with
  | none => .ok (m, [])
  | some so => do
      let cfg := so.getD m.current_state.toNat []
      let (os2, sigs) ← applyOutputsFrom 0 cfg m.output_states
      .ok ({ m with output_states := os2 }, sigs)

/-- `StateMachine._process_integer_outputs` (it only emits, never
mutates). -/
def StateMachine._process_integer_outputs (m : StateMachine) : List Signal :=
  match m.integer_outputs with
  | none => []
  | some io =>
      if io.getD m.current_state.toNat 0 ≠ 0 then
        [Signal.integerOutput (io.getD m.current_state.toNat 0)]
      else []

/-- `StateMachine._start_state_timer`: arm the single-shot Qt timer with
`int(duration * 1000)` milliseconds when the duration is finite and
non-negative. -/
def StateMachine._start_state_timer (m : StateMachine) : StateMachine :=
  match m.state_timers with
  | none => m
  | some ts =>
      match ts.getD m.current_state.toNat PTime.inf with
      | PTime.inf => m
      | PTime.fin q => if 0 ≤ q then { m with state_timer := some ⌊q * 1000⌋ } else m

/-- `StateMachine._enter_state`: set the new state, stop the timer,
process outputs and integer outputs, restart the timer, and emit
`stateChanged`. -/
def StateMachine._enter_state (m : StateMachine) (state_index : Int) :
    Except String (StateMachine × List Signal) :=
  if 0 ≤ state_index ∧ state_index < (m.num_states : Int) then do
    let m1 := { m with current_state := state_index, state_timer := none }
    let (m2, outSigs) ← m1._process_state_outputs
    let intSigs := m2._process_integer_outputs
    let m3 := m2._start_state_timer
    .ok (m3, outSigs ++ intSigs ++ [Signal.stateChanged m3.current_state])
  else .error "Invalid state index"

/-- `StateMachine._process_event`: the unified lookup-notify-transition
step shared by external inputs and timer expiry. -/
def StateMachine._process_event (m : StateMachine) (event_index : Int) (t : ℚ) :
    Except String (StateMachine × List Signal) :=
  match m.state_matrix with
  | none => .error "TypeError: state matrix is not set"
  | some mat =>
      let next := (mat.getD m.current_state.toNat []).getD event_index.toNat 0
      if next ≠ m.current_state then do
        let (m2, sigs) ← m._enter_state next
        .ok (m2, Signal.eventProcessed event_index t next :: sigs)
      else
        .ok (m, [Signal.eventProcessed event_index t next])

/-- `StateMachine.process_input`. -/
def StateMachine.process_input (m : StateMachine) (input_event : Int) (t : ℚ) :
    Except String (StateMachine × List Signal) :=
  if !m.is_running then .ok (m, [])
  else if !m.is_configured then .error "State machine is not configured"
  else if 0 ≤ input_event ∧ input_event < (m.num_inputs : Int) then
    m._process_event input_event t
  else .error "Invalid input index"

/-- `StateMachine._on_state_timer_expired`. -/
def StateMachine._on_state_timer_expired (m : StateMachine) (t : ℚ) :
    Except String (StateMachine × List Signal) :=
  if !m.is_running || !m.is_configured then .ok (m, [])
  else
    match m.timer_event_index with
    | none => .error "TypeError: timer event index is not set"
    | some tei => m._process_event tei t

/-- `StateMachine.force_state`. -/
def StateMachine.force_state (m : StateMachine) (state_index : Int) (t : ℚ) :
    Except String (StateMachine × List Signal) :=
  if !m.is_configured then
    .ok (m, [Signal.warning "State machine is not configured. No state was forced."])
  else
    let si := if state_index = -1 then (m.num_states : Int) - 1 else state_index
    if 0 ≤ si ∧ si < (m.num_states : Int) then
      if m.is_running = true ∧ si ≠ m.current_state then do
        let (m2, sigs) ← m._enter_state si
        .ok (m2, Signal.eventProcessed (-1) t si :: sigs)
      else .ok (m, [])
    else .error "Invalid state index"

/-- `StateMachine.force_output`. -/
def StateMachine.force_output (m : StateMachine) (output : Int) (value : Bool) :
    Except String (StateMachine × List Signal) :=
  if !m.is_configured then
    .ok (m, [Signal.warning "State machine is not configured. No output was forced."])
  else if 0 ≤ output ∧ output < (m.num_outputs : Int) then
    if m.output_states.getD output.toNat false ≠ value then
      .ok ({ m with output_states := m.output_states.set output.toNat value },
           [Signal.outputChanged output.toNat value])
    else .ok (m, [])
  else .error "Invalid output index"

/-- Well-formedness of a configured machine: the shape facts that hold
for every machine configured through the setters (matrix rectangular
with in-range entries, shapes agreeing with the cached counts, a valid
timer event index, and a current state in range). -/
def StateMachine.wf (m : StateMachine) : Bool :=
  match m.state_matrix, m.state_outputs, m.state_timers with
  | some mat, some so, some ts =>
      m.num_states == mat.length && decide (0 < mat.length) &&
      mat.all (fun r => r.length == m.num_inputs) &&
      mat.all (fun r => r.all (fun v => decide (0 ≤ v) && decide (v < (mat.length : Int)))) &&
      so.length == mat.length &&
      so.all (fun r => r.length == m.num_outputs) &&
      m.output_states.length == m.num_outputs &&
      ts.length == mat.length &&
      decide (0 ≤ m.current_state) && decide (m.current_state < (mat.length : Int)) &&
      (match m.timer_event_index with
       | some tei => decide (0 ≤ tei) && decide (tei < (m.num_inputs : Int))
       | none => false)
  | _, _, _ => false

/-- Ordered association list standing for a Python `dict` with string
keys and integer values (insertion order preserved, assignment to an
existing key updates in place). -/
def dictLookup (d : List (String × Int)) (k : String) : Option Int :=
  match d.find? (fun p => p.1 == k) with
  | some p => some p.2
  | none => none

/-- Python `d[k] = v` on an ordered dict: overwrite the first binding of
`k` in place, or append a fresh binding at the end. -/
def dictInsert (d : List (String × Int)) (k : String) (v : Int) : List (String × Int) :=
  match d with
  | [] => [(k, v)]
  | p :: rest => if p.1 == k then (p.1, v) :: rest else p :: dictInsert rest k v

/-- Lookup in the `states` bidict (string keys, `Nat` state indices). -/
def statesLookup (d : List (String × Nat)) (k : String) : Option Nat :=
  match d.find? (fun p => p.1 == k) with
  | some p => some p.2
  | none => none

/-- Python list assignment `l[i] = v` with negative-index wrapping and
`IndexError` out of range. -/
def pySetInt (l : List Int) (i : Int) (v : Int) : Except String (List Int) :=
  let n : Int := l.length
  let j := if i < 0 then i + n else i
  if 0 ≤ j ∧ j < n then .ok (l.set j.toNat v)
  else .error "IndexError: list assignment index out of range"

/-- The mutable state of `statematrix.StateMatrix`.  Fields are named
after the Python attributes. -/
structure StateMatrix where
  inputs_dict : List (String × Int)
  outputs_dict : List (String × Int)
  state_matrix : List (List Int)
  state_timers : List PTime
  state_outputs : List (List Int)
  serial_outputs : List Int
  states : List (String × Nat)
  next_state_ind : Nat
  extra_timers_names : List String
  extra_timers_duration : List ℚ
  extra_timers_triggers : List Nat
  events_dict : List (String × Int)
  n_input_events : Nat
  n_outputs : Nat
deriving DecidableEq, Repr, Inhabited

/-- `StateMatrix._make_default_row`: every event self-loops. -/
def StateMatrix._make_default_row (sm : StateMatrix) (state_ind : Nat) : List Int :=
  List.replicate (sm.n_input_events + sm.extra_timers_names.length) (state_ind : Int)

/-- `StateMatrix._append_state_to_list`: bind the next free index to
`state_name`, pad the row/timer/output/serial lists up to that index
(the Python `while` loop), and install the default row. -/
def StateMatrix._append_state_to_list (sm : StateMatrix) (state_name : String) : StateMatrix :=
  let state_ind := sm.next_state_ind
  let npad := state_ind + 1 - sm.state_matrix.length
  { sm with
    states := sm.states ++ [(state_name, state_ind)],
    next_state_ind := state_ind + 1,
    state_matrix := (sm.state_matrix ++ List.replicate npad []).set state_ind
      (sm._make_default_row state_ind),
    state_timers := sm.state_timers ++ List.replicate npad PTime.inf,
    state_outputs := sm.state_outputs ++ List.replicate npad (List.replicate sm.n_outputs (-1)),
    serial_outputs := sm.serial_outputs ++ List.replicate npad 0 }

/-- The `if name not in self.states: self._append_state_to_list(name)`
pattern followed by `self.states[name]`. -/
def StateMatrix.resolveState (sm : StateMatrix) (name : String) : StateMatrix × Nat :=
  match statesLookup sm.states name with
  | some i => (sm, i)
  | none => (sm._append_state_to_list name, sm.next_state_ind)

/-- The transitions loop of `add_state`: resolve each target state
(auto-creating missing ones) and write it into the row at the event's
column. -/
def applyTransitions :
    StateMatrix → List Int → List (String × String) → Except String (StateMatrix × List Int)
  | sm, row, [] => .ok (sm, row)
  | sm, row, (event_name, target_state_name) :: rest =>
      match dictLookup (sm.resolveState target_state_name).1.events_dict event_name with
      | none => .error ("KeyError: " ++ event_name)
      | some col =>
          match pySetInt row col ((sm.resolveState target_state_name).2 : Int) with
          | .error e => .error e
          | .ok row1 => applyTransitions (sm.resolveState target_state_name).1 row1 rest

/-- The `outputsOn` / `outputsOff` loops of `add_state`, acting on the
state's output row. -/
def setOutputsVals :
    StateMatrix → List Int → List String → Int → Except String (List Int)
  | _, row, [], _ => .ok row
  | sm, row, nm :: rest, v =>
      match dictLookup sm.outputs_dict nm with
      | none => .error ("KeyError: " ++ nm)
      | some output_ind =>
          match pySetInt row output_ind v with
          | .error e => .error e
          | .ok row1 => setOutputsVals sm row1 rest v

/-- The `trigger` loop of `add_state`: `extra_timers_names.index(nm)`
raises `ValueError` when missing, else the trigger slot is overwritten
with this state's index. -/
def setTriggers :
    StateMatrix → List Nat → Nat → List String → Except String (List Nat)
  | _, trig, _, [] => .ok trig
  | sm, trig, this_ind, nm :: rest =>
      match sm.extra_timers_names.findIdx? (fun x => x == nm) with
      | none => .error ("ValueError: " ++ nm ++ " is not in list")
      | some idx => setTriggers sm (trig.set idx this_ind) this_ind rest

/-- `StateMatrix.add_state`. -/
def StateMatrix.add_state (sm : StateMatrix) (name : String) (statetimer : PTime)
    (transitions : List (String × String)) (outputsOn outputsOff : List String)
    (trigger : List String) (serialOut : Int) : Except String StateMatrix :=
  match applyTransitions (sm.resolveState name).1
      ((sm.resolveState name).1._make_default_row (sm.resolveState name).2) transitions with
  | .error e => .error e
  | .ok (sm2, new_row) =>
      match setOutputsVals sm2 (List.replicate sm2.n_outputs (-1)) outputsOn 1 with
      | .error e => .error e
      | .ok souts1 =>
          match setOutputsVals sm2 souts1 outputsOff 0 with
          | .error e => .error e
          | .ok souts2 =>
              match setTriggers sm2 sm2.extra_timers_triggers
                  (sm.resolveState name).2 trigger with
              | .error e => .error e
              | .ok trig2 =>
                  .ok { sm2 with
                        state_matrix := sm2.state_matrix.set (sm.resolveState name).2 new_row,
                        state_timers := sm2.state_timers.set (sm.resolveState name).2 statetimer,
                        state_outputs := sm2.state_outputs.set (sm.resolveState name).2 souts2,
                        serial_outputs :=
                          sm2.serial_outputs.set (sm.resolveState name).2 serialOut,
                        extra_timers_triggers := trig2 }

/-- `StateMatrix._add_extratimer`: the only check performed is the
duplicate-name check (the `_init_mat()` re-initialisation call in the
source is commented out). -/
def StateMatrix._add_extratimer (sm : StateMatrix) (name : String) (duration : ℚ) :
    Except String StateMatrix :=
  if sm.extra_timers_names.contains name then
    .error ("Extra timer (" ++ name ++ ") has already been defined.")
  else
    let names := sm.extra_timers_names ++ [name]
    let extra_timer_event_col : Int := (sm.n_input_events : Int) + (names.length : Int) - 1
    .ok { sm with
          extra_timers_names := names,
          events_dict := dictInsert sm.events_dict name extra_timer_event_col,
          extra_timers_duration := sm.extra_timers_duration ++ [duration],
          extra_timers_triggers := sm.extra_timers_triggers ++ [0] }

/-- `StateMatrix.set_extratimer`. -/
def StateMatrix.set_extratimer (sm : StateMatrix) (name : String) (duration : ℚ) :
    Except String StateMatrix :=
  match sm.extra_timers_names.findIdx? (fun x => x == name) with
  | none => .error ("The state matrix has no extratimer called " ++ name ++ ".")
  | some i => .ok { sm with extra_timers_duration := sm.extra_timers_duration.set i duration }

/-- `StateMatrix._force_transition`: write `destination` into the `Tup`
column of `origin`'s row. -/
def StateMatrix._force_transition (sm : StateMatrix) (origin destination : Int) : StateMatrix :=
  match dictLookup sm.events_dict "Tup" with
  | none => sm
  | some tup =>
      let row := sm.state_matrix.getD origin.toNat []
      { sm with state_matrix := sm.state_matrix.set origin.toNat (row.set tup.toNat destination) }

/-- `StateMatrix._init_mat`: create the START state (with zero timer)
and point its `Tup` transition at state 1. -/
def StateMatrix._init_mat (sm : StateMatrix) : Except String StateMatrix := do
  if sm.state_matrix.length > 1 then
    .error "You need to create all extra timers before creating any state."
  else do
    let sm1 ← sm.add_state "START" (PTime.fin 0) [] [] [] [] 0
    .ok (sm1._force_transition 0 1)

/-- The event dictionary built from the inputs dict in
`StateMatrix.__init__`: `key+'in' -> 2*val`, `key+'out' -> 2*val+1`. -/
def buildEvents (inputs : List (String × Int)) : List (String × Int) :=
  inputs.foldl
    (fun ev p => dictInsert (dictInsert ev (p.1 ++ "in") (2 * p.2)) (p.1 ++ "out") (2 * p.2 + 1))
    []

/-- The state of `StateMatrix.__init__` just before the extra timers
are added: the events dict holds the input events, then `Tup` (at index
`len(events_dict)`), then the `Forced` sentinel at -1; `n_input_events`
counts the events up to and including `Tup`. -/
def StateMatrix.initBase (inputs outputs : List (String × Int)) : StateMatrix :=
  { inputs_dict := inputs, outputs_dict := outputs,
    state_matrix := [], state_timers := [], state_outputs := [], serial_outputs := [],
    states := [], next_state_ind := 0,
    extra_timers_names := [], extra_timers_duration := [], extra_timers_triggers := [],
    events_dict :=
      dictInsert
        (dictInsert (buildEvents inputs) "Tup" ((buildEvents inputs).length : Int))
        "Forced" (-1),
    n_input_events :=
      (dictInsert (buildEvents inputs) "Tup" ((buildEvents inputs).length : Int)).length,
    n_outputs := outputs.length }

/-- `StateMatrix.__init__`: build the events dict, add the extra timers,
then `_init_mat`. -/
def StateMatrix.init (inputs outputs : List (String × Int)) (extratimers : List String) :
    Except String StateMatrix :=
  (extratimers.foldlM (fun sm nm => sm._add_extratimer nm 0)
    (StateMatrix.initBase inputs outputs)) >>= fun sm1 => sm1._init_mat

/-- `StateMatrix._ensure_end_state`. -/
def StateMatrix._ensure_end_state (sm : StateMatrix) : Except String StateMatrix :=
  if (statesLookup sm.states "END").isSome then .ok sm
  else sm.add_state "END" PTime.inf [] [] [] [] 0

/-- `StateMatrix.get_matrix`: ensure END exists, validate, and return
the (state-mutated) builder together with the matrix array. -/
def StateMatrix.get_matrix (sm : StateMatrix) :
    Except String (StateMatrix × List (List Int)) := do
  let sm1 ← sm._ensure_end_state
  if !rect2 sm1.state_matrix || sm1.state_matrix.isEmpty then
    .error "State matrix must be 2-dimensional"
  else if !(sm1.state_matrix.all fun r => r.all fun v =>
        decide (0 ≤ v) && decide (v < (sm1.state_matrix.length : Int))) then
    .error "State matrix contains invalid state indices"
  else .ok (sm1, sm1.state_matrix)

/-- The `actual_outputs` list built inside `get_outputs`: output rows of
states that exist in the state matrix (the enumerate-and-filter loop). -/
def StateMatrix.outputsActual (sm : StateMatrix) : List (List Int) :=
  (List.range sm.state_outputs.length).filterMap (fun i =>
    if i < sm.state_matrix.length && !(sm.state_matrix.getD i []).isEmpty then
      some (sm.state_outputs.getD i [])
    else none)

/-- `StateMatrix.get_outputs`. -/
def StateMatrix.get_outputs (sm : StateMatrix) :
    Except String (StateMatrix × List (List Int)) := do
  let sm1 ← sm._ensure_end_state
  if sm1.state_outputs.isEmpty then .ok (sm1, [])
  else if sm1.outputsActual.isEmpty then .ok (sm1, [])
  else if !rect2 sm1.outputsActual then
    .error "State outputs could not be converted to a 2-dimensional array"
  else if !(sm1.outputsActual.all fun r => r.all fun v => v == -1 || v == 0 || v == 1) then
    .error "State outputs must contain only -1 (no change), 0 (off), or 1 (on)"
  else .ok (sm1, sm1.outputsActual)

/-- The `actual_timers` list built inside `get_state_timers`. -/
def StateMatrix.timersActual (sm : StateMatrix) : List PTime :=
  (List.range sm.state_timers.length).filterMap (fun i =>
    if i < sm.state_matrix.length && !(sm.state_matrix.getD i []).isEmpty then
      some (sm.state_timers.getD i PTime.inf)
    else none)

/-- `StateMatrix.get_state_timers`. -/
def StateMatrix.get_state_timers (sm : StateMatrix) :
    Except String (StateMatrix × List PTime) := do
  let sm1 ← sm._ensure_end_state
  if sm1.state_timers.isEmpty then .ok (sm1, [])
  else .ok (sm1, sm1.timersActual)

/-- `StateMatrix.get_timer_event_index`. -/
def StateMatrix.get_timer_event_index (sm : StateMatrix) : Option Int :=
  dictLookup sm.events_dict "Tup"

/-- `StateMatrix.reset_transitions`: every known state gets the default
self-loop row, an infinite timer and all-no-change outputs. -/
def StateMatrix.reset_transitions (sm : StateMatrix) : StateMatrix :=
  sm.states.foldl
    (fun acc p =>
      { acc with
        state_matrix := acc.state_matrix.set p.2 (acc._make_default_row p.2),
        state_timers := acc.state_timers.set p.2 PTime.inf,
        state_outputs := acc.state_outputs.set p.2 (List.replicate acc.n_outputs (-1)) })
    sm

/-- A small configured, running machine used as a concrete witness input:
two states, two input events (the second being the timer event), one
output channel. -/
def demoCfg : StateMachine :=
  { state_matrix := some [[0, 1], [1, 1]],
    state_timers := some [PTime.inf, PTime.inf],
    state_outputs := some [[-1], [1]],
    integer_outputs := none,
    timer_event_index := some 1,
    num_states := 2, num_inputs := 2, num_outputs := 1,
    current_state := 0, is_running := true,
    output_states := [false], state_timer := none }

/-- A configuration sequence actually reachable through the public
setters, used by concrete counterexamples. -/
def cfgChain : Except String StateMachine := do
  let m1 ← StateMachine.initial.set_state_matrix [[0, 1], [1, 1]] none
  let m2 ← m1.set_state_timers [PTime.inf, PTime.inf]
  m2.set_state_outputs [[-1], [-1]]

/-- The same machine after `start()`. -/
def runChain : Except String StateMachine := cfgChain.bind StateMachine.start

/-- C10: for every integer event index, `process_input` on a machine
that is not running returns normally with no notification and no state
change, because the `is_running` check precedes the configuration and
range checks. -/
theorem c10_process_input_not_running (m : StateMachine) (i : Int) (t : ℚ)
    (h : m.is_running = false) : m.process_input i t = .ok (m, []) := by
  simp [StateMachine.process_input, h]

theorem c10_witness :
    StateMachine.initial.is_running = false ∧
      StateMachine.initial.process_input (-7) 0 = .ok (StateMachine.initial, []) :=
  ⟨rfl, c10_process_input_not_running StateMachine.initial (-7) 0 rfl⟩

/-- C2: on a running, configured machine, the state-timer expiry handler
is exactly `process_input(timer_event_index)`: both funnel into the same
`_process_event` call, so the resulting state, outputs and signal
sequence coincide. -/
theorem c2_timer_expiry_equals_process_input (m : StateMachine) (tei : Int) (t : ℚ)
    (hrun : m.is_running = true) (hconf : m.is_configured = true)
    (htei : m.timer_event_index = some tei)
    (hlo : 0 ≤ tei) (hhi : tei < (m.num_inputs : Int)) :
    m._on_state_timer_expired t = m.process_input tei t := by
  simp [StateMachine._on_state_timer_expired, StateMachine.process_input,
        hrun, hconf, htei, hlo, hhi]

theorem c2_witness :
    demoCfg._on_state_timer_expired 0 = demoCfg.process_input 1 0 :=
  c2_timer_expiry_equals_process_input demoCfg 1 0 rfl rfl rfl (by decide) (by decide)

/-- C4 (amended): `set_state_matrix`, `set_state_timers` and
`set_state_outputs` all raise when the machine is running, for any
arguments; `set_integer_outputs`, however, performs no `is_running`
check and silently stores the new configuration. -/
theorem c4_setters_while_running (m : StateMachine) (mat so : List (List Int))
    (ts : List PTime) (io : List Int) (tei : Option Int)
    (hrun : m.is_running = true) :
    m.set_state_matrix mat tei =
        .error "Cannot modify state matrix while state machine is running" ∧
      m.set_state_timers ts =
        .error "Cannot modify state timers while state machine is running" ∧
      m.set_state_outputs so =
        .error "Cannot modify state outputs while state machine is running" ∧
      m.set_integer_outputs io = { m with integer_outputs := some io } := by
  refine ⟨?_, ?_, ?_, rfl⟩ <;>
    simp [StateMachine.set_state_matrix, StateMachine.set_state_timers,
          StateMachine.set_state_outputs, hrun]

theorem c4_witness :
    demoCfg.is_running = true ∧
      demoCfg.set_state_matrix [[0]] none =
        .error "Cannot modify state matrix while state machine is running" ∧
      demoCfg.set_state_timers [PTime.inf] =
        .error "Cannot modify state timers while state machine is running" ∧
      demoCfg.set_state_outputs [[0]] =
        .error "Cannot modify state outputs while state machine is running" ∧
      demoCfg.set_integer_outputs [7] = { demoCfg with integer_outputs := some [7] } :=
  ⟨rfl, c4_setters_while_running demoCfg [[0]] [[0]] [PTime.inf] [7] none rfl⟩

/-- C4 counterexample: on a machine that is running (reached through the
public setters and `start`), `set_integer_outputs` neither raises nor
ignores the call — it returns normally and the new integer outputs are
installed while `is_running` is still true.  This refutes the claim that
all four configuration setters raise while running. -/
theorem c4_counterexample :
    (runChain.map fun m =>
      (m.is_running,
       (m.set_integer_outputs [5]).integer_outputs,
       (m.set_integer_outputs [5]).is_running)) = .ok (true, some [5], true) := rfl

/-- C5 (amended): `start()` on a configured machine sets `is_running`
and unconditionally moves `current_state` to the last state
(`num_states - 1`), regardless of the state the machine was left in. -/
theorem c5_start_enters_last_state (m : StateMachine) (hconf : m.is_configured = true) :
    m.start = .ok { m with is_running := true,
                           current_state := (m.num_states : Int) - 1 } := by
  simp [StateMachine.start, hconf]

theorem c5_witness :
    demoCfg.start = .ok { demoCfg with is_running := true,
                                       current_state := (demoCfg.num_states : Int) - 1 } :=
  c5_start_enters_last_state demoCfg rfl

/-- C5 counterexample: a machine configured through the public setters
has `current_state = 0` just before `start()`, yet after `start()` the
current state is `1` (the last state), not the state it was left at.
This refutes the claim that `start()` preserves `current_state`. -/
theorem c5_counterexample :
    (cfgChain.map fun m => (m.is_configured, m.is_running, m.current_state)) =
        .ok (true, false, 0) ∧
      ((cfgChain.bind StateMachine.start).map fun m => m.current_state) = .ok 1 :=
  ⟨rfl, rfl⟩

/-- The value a single output directive leaves a channel at: 0 forces
off, 1 forces on, anything else (NOCHANGE) keeps the current value. -/
def stepOut (d : Int) (o : Bool) : Bool :=
  if d == 0 then false else if d == 1 then true else o

lemma applyOutputs_step (k : Nat) (d : Int) (o : Bool) :
    (if d == 0 then
        (if o then (false, [Signal.outputChanged k false]) else (o, ([] : List Signal)))
      else if d == 1 then
        (if o then (o, ([] : List Signal)) else (true, [Signal.outputChanged k true]))
      else (o, ([] : List Signal)))
    = (stepOut d o,
       if stepOut d o = o then [] else [Signal.outputChanged k (stepOut d o)]) := by
  by_cases h0 : d == 0 <;> by_cases h1 : d == 1 <;> cases o <;> simp [stepOut, h0, h1]

/-- Behaviour of the `_process_state_outputs` loop: it succeeds whenever
the directive row is no longer than `output_states`, touches exactly the
channels whose directive forces a different value, and emits one
`outputChanged` per flipped channel. -/
lemma applyOutputsFrom_spec :
    ∀ (ds : List Int) (os : List Bool) (k : Nat), ds.length ≤ os.length →
    ∃ os2 sigs, applyOutputsFrom k ds os = .ok (os2, sigs) ∧
      os2.length = os.length ∧
      (∀ j, ds.length ≤ j → os2.getD j false = os.getD j false) ∧
      (∀ j, sigs.filter (isOutFor (k + j)) =
        (if os2.getD j false = os.getD j false then []
         else [Signal.outputChanged (k + j) (os2.getD j false)])) ∧
      (∀ s ∈ sigs, ∃ i v, s = Signal.outputChanged i v ∧ k ≤ i ∧ i < k + ds.length) ∧
      (∀ j, ds.getD j 9 = -1 → os2.getD j false = os.getD j false)
  | [], os, k, _ => by
      refine ⟨os, [], rfl, rfl, fun j _ => rfl, fun j => by simp, by simp, fun j _ => rfl⟩
  | d :: ds, [], k, h => by simp at h
  | d :: ds, o :: os, k, h => by
      obtain ⟨os2, sigs2, heq, hlen, hpast, hfilt, hmem, hnc⟩ :=
        applyOutputsFrom_spec ds os (k + 1) (by simpa using h)
      refine ⟨stepOut d o :: os2,
        (if stepOut d o = o then [] else [Signal.outputChanged k (stepOut d o)]) ++ sigs2,
        ?_, ?_, ?_, ?_, ?_, ?_⟩
      · simp only [applyOutputsFrom, applyOutputs_step, heq]
        rfl
      · simp [hlen]
      · intro j hj
        match j, hj with
        | j + 1, hj =>
          simp only [List.getD_cons_succ]
          exact hpast j (by simp only [List.length_cons] at hj; omega)
      · intro j
        match j with
        | 0 =>
          rw [List.filter_append]
          have h2 : sigs2.filter (isOutFor (k + 0)) = [] := by
            rw [List.filter_eq_nil_iff]
            intro s hs
            obtain ⟨i, v, rfl, hki, _⟩ := hmem s hs
            simp [isOutFor]
            omega
          rw [h2]
          by_cases hne : stepOut d o = o <;> simp [hne, isOutFor]
        | j + 1 =>
          rw [List.filter_append]
          have h1 : (if stepOut d o = o then []
              else [Signal.outputChanged k (stepOut d o)]).filter
                (isOutFor (k + (j + 1))) = [] := by
            by_cases hne : stepOut d o = o <;> simp [hne, isOutFor]
          rw [h1]
          have h3 : k + (j + 1) = (k + 1) + j := by omega
          simp only [List.nil_append, List.getD_cons_succ, h3]
          exact hfilt j
      · intro s hs
        rcases List.mem_append.mp hs with hs | hs
        · by_cases hne : stepOut d o = o
          · simp [hne] at hs
          · simp [hne] at hs
            exact ⟨k, stepOut d o, hs, le_refl k, by simp only [List.length_cons]; omega⟩
        · obtain ⟨i, v, rfl, hki, hik⟩ := hmem s hs
          exact ⟨i, v, rfl, by omega, by simp only [List.length_cons]; omega⟩
      · intro j hj
        match j, hj with
        | 0, hj =>
          have hd0 : (d == 0) = false := by simp_all
          have hd1 : (d == 1) = false := by simp_all
          simp [List.getD_cons_zero, stepOut, hd0, hd1]
        | j + 1, hj =>
          simp only [List.getD_cons_succ] at hj ⊢
          exact hnc j hj

/-- `_start_state_timer` only ever touches the `state_timer` field. -/
lemma start_state_timer_eq (m : StateMachine) :
    ∃ st, m._start_state_timer = { m with state_timer := st } := by
  unfold StateMachine._start_state_timer
  split
  · exact ⟨m.state_timer, rfl⟩
  · split
    · exact ⟨m.state_timer, rfl⟩
    · split
      · exact ⟨_, rfl⟩
      · exact ⟨m.state_timer, rfl⟩

/-- `_process_integer_outputs` emits at most one `integerOutput`. -/
lemma integer_outputs_sigs (m : StateMachine) :
    m._process_integer_outputs = [] ∨
      ∃ v, m._process_integer_outputs = [Signal.integerOutput v] := by
  unfold StateMachine._process_integer_outputs
  split
  · exact Or.inl rfl
  · split
    · exact Or.inr ⟨_, rfl⟩
    · exact Or.inl rfl

/-- Unpacking of the well-formedness boolean into the shape facts the
transition proofs use. -/
lemma wf_spec (m : StateMachine) (hwf : m.wf = true) :
    ∃ mat so ts,
      m.state_matrix = some mat ∧ m.state_outputs = some so ∧ m.state_timers = some ts ∧
      m.num_states = mat.length ∧ 0 < mat.length ∧
      (∀ r ∈ mat, r.length = m.num_inputs) ∧
      (∀ r ∈ mat, ∀ v ∈ r, 0 ≤ v ∧ v < (mat.length : Int)) ∧
      so.length = mat.length ∧ (∀ r ∈ so, r.length = m.num_outputs) ∧
      m.output_states.length = m.num_outputs ∧ ts.length = mat.length ∧
      0 ≤ m.current_state ∧ m.current_state < (mat.length : Int) ∧
      ∃ tei, m.timer_event_index = some tei ∧ 0 ≤ tei ∧ tei < (m.num_inputs : Int) := by
  unfold StateMachine.wf at hwf
  split at hwf
  · rename_i mat so ts hm hso hts
    simp only [Bool.and_eq_true, beq_iff_eq, decide_eq_true_eq, List.all_eq_true] at hwf
    obtain ⟨⟨⟨⟨⟨⟨⟨⟨⟨⟨h1, h2⟩, h3⟩, h4⟩, h5⟩, h6⟩, h7⟩, h8⟩, h9⟩, h10⟩, h11⟩ := hwf
    refine ⟨mat, so, ts, hm, hso, hts, h1, h2, h3, ?_, h5, h6, h7, h8, h9, h10, ?_⟩
    · intro r hr v hv
      exact ⟨(h4 r hr v hv).1, (h4 r hr v hv).2⟩
    · split at h11
      · rename_i tei htei
        simp only [Bool.and_eq_true, decide_eq_true_eq] at h11
        exact ⟨tei, htei, h11.1, h11.2⟩
      · exact absurd h11 (by simp)
  · exact absurd hwf (by simp)

/-- Reduction of `_process_state_outputs` given the loop's result. -/
lemma process_state_outputs_eq (m : StateMachine) (so : List (List Int)) (os2 : List Bool)
    (sigs : List Signal) (hso : m.state_outputs = some so)
    (h : applyOutputsFrom 0 (so.getD m.current_state.toNat []) m.output_states =
          .ok (os2, sigs)) :
    m._process_state_outputs = .ok ({ m with output_states := os2 }, sigs) := by
  unfold StateMachine._process_state_outputs
  split
  · rename_i hnone
    rw [hnone] at hso
    exact absurd hso (by simp)
  · rename_i so' hso'
    rw [hso'] at hso
    obtain rfl : so' = so := by injection hso
    simp only [h]
    rfl

/-- Reduction of `_enter_state` once its output-processing step is
known. -/
lemma enter_state_eq (m : StateMachine) (s : Int) (hs : 0 ≤ s ∧ s < (m.num_states : Int))
    (mo : StateMachine) (outSigs : List Signal)
    (hpso : ({ m with current_state := s, state_timer := none } :
        StateMachine)._process_state_outputs = .ok (mo, outSigs)) :
    m._enter_state s = .ok (mo._start_state_timer,
      outSigs ++ mo._process_integer_outputs ++
        [Signal.stateChanged (mo._start_state_timer).current_state]) := by
  unfold StateMachine._enter_state
  rw [if_pos hs]
  simp only [hpso]
  rfl

/-- Full behaviour of `_enter_state` on a machine with a set outputs
table: it succeeds, lands in the requested state, and emits an
`outputChanged` for a channel exactly when the channel's boolean value
flips (NOCHANGE directives preserve the previous value). -/
lemma enter_state_spec (m : StateMachine) (so : List (List Int)) (s : Int)
    (hso : m.state_outputs = some so)
    (h0 : 0 ≤ s) (h1 : s < (m.num_states : Int))
    (hlen : (so.getD s.toNat []).length ≤ m.output_states.length) :
    ∃ m2 sigs, m._enter_state s = .ok (m2, sigs) ∧
      m2.current_state = s ∧
      m2.output_states.length = m.output_states.length ∧
      sigs.filter isEP = [] ∧
      (∀ j, sigs.filter (isOutFor j) =
        (if m2.output_states.getD j false = m.output_states.getD j false then []
         else [Signal.outputChanged j (m2.output_states.getD j false)])) ∧
      (∀ j, (so.getD s.toNat []).getD j 9 = -1 →
        m2.output_states.getD j false = m.output_states.getD j false) := by
  obtain ⟨os2, outSigs, heq, hlen2, _, hfilt, hmem, hnc⟩ :=
    applyOutputsFrom_spec (so.getD s.toNat []) m.output_states 0 hlen
  have hpso := process_state_outputs_eq
    { m with current_state := s, state_timer := none } so os2 outSigs hso heq
  have hent := enter_state_eq m s ⟨h0, h1⟩ _ _ hpso
  set mo : StateMachine :=
    { m with current_state := s, state_timer := none, output_states := os2 } with hmo
  obtain ⟨st, hst⟩ := start_state_timer_eq mo
  refine ⟨mo._start_state_timer, _, hent, ?_, ?_, ?_, ?_, ?_⟩
  · rw [hst]
  · rw [hst]
    exact hlen2
  · rw [List.filter_append, List.filter_append]
    have hA : outSigs.filter isEP = [] := by
      rw [List.filter_eq_nil_iff]
      intro a ha
      obtain ⟨i, v, rfl, _, _⟩ := hmem a ha
      simp [isEP]
    have hB : (mo._process_integer_outputs).filter isEP = [] := by
      rcases integer_outputs_sigs mo with h | ⟨v, h⟩ <;> rw [h] <;> simp [isEP]
    rw [hA, hB]
    simp [isEP]
  · intro j
    rw [List.filter_append, List.filter_append]
    have hB : (mo._process_integer_outputs).filter (isOutFor j) = [] := by
      rcases integer_outputs_sigs mo with h | ⟨v, h⟩ <;> rw [h] <;> simp [isOutFor]
    have hC : ([Signal.stateChanged (mo._start_state_timer).current_state]).filter
        (isOutFor j) = [] := by simp [isOutFor]
    rw [hB, hC]
    have := hfilt j
    simp only [Nat.zero_add] at this
    rw [hst]
    simpa using this
  · intro j hj
    rw [hst]
    simpa using hnc j hj

lemma getD_mem {α : Type} (l : List α) (n : Nat) (d : α) (h : n < l.length) :
    l.getD n d ∈ l := by
  induction l generalizing n with
  | nil => simp at h
  | cons a l ih =>
      cases n with
      | zero => simp
      | succ n =>
          simp only [List.getD_cons_succ]
          exact List.mem_cons_of_mem _ (ih n (by simpa using h))

/-- Reduction of `_process_event` on a machine with a set matrix. -/
lemma process_event_eq (m : StateMachine) (mat : List (List Int)) (E : Int) (t : ℚ)
    (hmat : m.state_matrix = some mat) :
    m._process_event E t =
      (if (mat.getD m.current_state.toNat []).getD E.toNat 0 ≠ m.current_state then do
          let (m2, sigs) ← m._enter_state ((mat.getD m.current_state.toNat []).getD E.toNat 0)
          Except.ok (m2,
            Signal.eventProcessed E t ((mat.getD m.current_state.toNat []).getD E.toNat 0) :: sigs)
        else
          Except.ok (m,
            [Signal.eventProcessed E t ((mat.getD m.current_state.toNat []).getD E.toNat 0)])) := by
  unfold StateMachine._process_event
  split
  · rename_i hnone
    rw [hnone] at hmat
    exact absurd hmat (by simp)
  · rename_i mat' hmat'
    rw [hmat'] at hmat
    obtain rfl : mat' = mat := by injection hmat
    rfl

/-- C1: on a configured, running machine, `process_input(E)` emits
exactly one `eventProcessed` signal, carrying the event index, the
timestamp and the matrix lookup `matrix[S][E]`; and when the lookup is a
self-loop (`matrix[S][E] = S`) the machine is left completely unchanged
and the event-processed signal is the only signal emitted (no
`stateChanged`, no output change). -/
theorem c1_process_input_notifies (m : StateMachine) (mat : List (List Int)) (E : Int) (t : ℚ)
    (hwf : m.wf = true) (hrun : m.is_running = true)
    (hmat : m.state_matrix = some mat)
    (hE0 : 0 ≤ E) (hE1 : E < (m.num_inputs : Int)) :
    ∃ m2 sigs, m.process_input E t = .ok (m2, sigs) ∧
      sigs.filter isEP =
        [Signal.eventProcessed E t ((mat.getD m.current_state.toNat []).getD E.toNat 0)] ∧
      ((mat.getD m.current_state.toNat []).getD E.toNat 0 = m.current_state →
        m2 = m ∧ sigs = [Signal.eventProcessed E t m.current_state]) := by
  obtain ⟨mat', so, ts, hm', hso, hts, hns, hpos, hrowlen, hvals, hsolen, hsorow,
    hoslen, htslen, hc0, hc1, tei, htei, hta, htb⟩ := wf_spec m hwf
  rw [hm'] at hmat
  injection hmat with hmm
  rw [hmm] at hm' hns hpos hrowlen hvals hsolen htslen hc1
  have hconf : m.is_configured = true := by
    simp [StateMachine.is_configured, hm', hso, hts]
  have hpi : m.process_input E t = m._process_event E t := by
    unfold StateMachine.process_input
    simp [hrun, hconf, hE0, hE1]
  rw [hpi, process_event_eq m mat E t hm']
  by_cases hcase : (mat.getD m.current_state.toNat []).getD E.toNat 0 = m.current_state
  · rw [if_neg (not_not_intro hcase)]
    refine ⟨m, _, rfl, by simp [isEP], fun _ => ⟨rfl, by rw [hcase]⟩⟩
  · rw [if_pos hcase]
    have hcl : m.current_state.toNat < mat.length := by omega
    have hrow : mat.getD m.current_state.toNat [] ∈ mat := getD_mem mat _ [] hcl
    have hel : E.toNat < (mat.getD m.current_state.toNat []).length := by
      rw [hrowlen _ hrow]; omega
    have hnr : (mat.getD m.current_state.toNat []).getD E.toNat 0 ∈
        mat.getD m.current_state.toNat [] := getD_mem _ _ 0 hel
    have hb := hvals _ hrow _ hnr
    have hsl : ((mat.getD m.current_state.toNat []).getD E.toNat 0).toNat < so.length := by
      rw [hsolen]; omega
    have hsrow : so.getD ((mat.getD m.current_state.toNat []).getD E.toNat 0).toNat [] ∈ so :=
      getD_mem so _ [] hsl
    have hlen : (so.getD ((mat.getD m.current_state.toNat []).getD E.toNat 0).toNat []).length ≤
        m.output_states.length := by
      rw [hsorow _ hsrow, hoslen]
    obtain ⟨m2, sigs, hent, _, _, hnoEP, _, _⟩ :=
      enter_state_spec m so _ hso hb.1 (by rw [hns]; exact hb.2) hlen
    refine ⟨m2,
      Signal.eventProcessed E t ((mat.getD m.current_state.toNat []).getD E.toNat 0) :: sigs,
      ?_, ?_, fun h => absurd h hcase⟩
    · simp only [hent]
      rfl
    · simp [isEP, hnoEP]

theorem c1_witness :
    ∃ m2 sigs, demoCfg.process_input 0 0 = .ok (m2, sigs) ∧
      sigs.filter isEP =
        [Signal.eventProcessed 0 0
          ((([[0, 1], [1, 1]] : List (List Int)).getD demoCfg.current_state.toNat []).getD
            (0 : Int).toNat 0)] ∧
      ((([[0, 1], [1, 1]] : List (List Int)).getD demoCfg.current_state.toNat []).getD
          (0 : Int).toNat 0 = demoCfg.current_state →
        m2 = demoCfg ∧ sigs = [Signal.eventProcessed 0 0 demoCfg.current_state]) :=
  c1_process_input_notifies demoCfg [[0, 1], [1, 1]] 0 0 (by decide) rfl rfl
    (by decide) (by decide)

/-- C3: on every state entry, an `outputChanged` signal is emitted for a
channel exactly when that channel's boolean value flips, and a channel
whose directive in the entered state is NOCHANGE (-1) keeps its previous
value — whatever prior output configuration (including one set by
`force_output`) the machine had. -/
theorem c3_output_diffing_on_entry (m : StateMachine) (so : List (List Int)) (s : Int)
    (hso : m.state_outputs = some so)
    (h0 : 0 ≤ s) (h1 : s < (m.num_states : Int))
    (hlen : (so.getD s.toNat []).length ≤ m.output_states.length) :
    ∃ m2 sigs, m._enter_state s = .ok (m2, sigs) ∧
      (∀ j, sigs.filter (isOutFor j) =
        (if m2.output_states.getD j false = m.output_states.getD j false then []
         else [Signal.outputChanged j (m2.output_states.getD j false)])) ∧
      (∀ j, (so.getD s.toNat []).getD j 9 = -1 →
        m2.output_states.getD j false = m.output_states.getD j false) := by
  obtain ⟨m2, sigs, hent, _, _, _, hf, hn⟩ := enter_state_spec m so s hso h0 h1 hlen
  exact ⟨m2, sigs, hent, hf, hn⟩

/-- Machine for the C3 witness: the demo machine after a forced output
turned channel 0 on. -/
def demoForced : StateMachine := { demoCfg with output_states := [true] }

theorem c3_witness :
    ∃ m2 sigs, demoForced._enter_state 0 = .ok (m2, sigs) ∧
      (∀ j, sigs.filter (isOutFor j) =
        (if m2.output_states.getD j false = demoForced.output_states.getD j false then []
         else [Signal.outputChanged j (m2.output_states.getD j false)])) ∧
      (∀ j, (([[-1], [1]] : List (List Int)).getD (0 : Int).toNat []).getD j 9 = -1 →
        m2.output_states.getD j false = demoForced.output_states.getD j false) :=
  c3_output_diffing_on_entry demoForced [[-1], [1]] 0 rfl (by decide) (by decide) (by decide)

/-- Reduction of `force_state` on a configured machine. -/
lemma force_state_configured (m : StateMachine) (i : Int) (t : ℚ)
    (hconf : m.is_configured = true) :
    m.force_state i t =
      (if 0 ≤ (if i = -1 then (m.num_states : Int) - 1 else i) ∧
          (if i = -1 then (m.num_states : Int) - 1 else i) < (m.num_states : Int) then
         if m.is_running = true ∧
             (if i = -1 then (m.num_states : Int) - 1 else i) ≠ m.current_state then do
           let (m2, sigs) ← m._enter_state (if i = -1 then (m.num_states : Int) - 1 else i)
           Except.ok (m2,
             Signal.eventProcessed (-1) t
               (if i = -1 then (m.num_states : Int) - 1 else i) :: sigs)
         else .ok (m, [])
       else .error "Invalid state index") := by
  unfold StateMachine.force_state
  rw [hconf]
  rfl

/-- C6: `force_state` on an unconfigured machine warns and changes
nothing; on a configured machine, index -1 stands for the last state;
when running and targeting a different state it emits exactly one
`eventProcessed` signal with event index -1 followed by exactly the
signals of the normal enter-state sequence; and when the target equals
the current state or the machine is not running, nothing happens. -/
theorem c6_force_state_behavior (m : StateMachine) (i : Int) (t : ℚ) :
    (m.is_configured = false →
      m.force_state i t =
        .ok (m, [Signal.warning "State machine is not configured. No state was forced."])) ∧
    (m.wf = true →
      ∀ si : Int, si = (if i = -1 then (m.num_states : Int) - 1 else i) →
        0 ≤ si → si < (m.num_states : Int) →
          ((m.is_running = true → si ≠ m.current_state →
            ∃ m2 sigs, m._enter_state si = .ok (m2, sigs) ∧
              m.force_state i t = .ok (m2, Signal.eventProcessed (-1) t si :: sigs) ∧
              (Signal.eventProcessed (-1) t si :: sigs).countP isEP = 1) ∧
          ((si = m.current_state ∨ m.is_running = false) →
            m.force_state i t = .ok (m, [])))) := by
  constructor
  · intro hnc
    unfold StateMachine.force_state
    simp [hnc]
  · intro hwf si hsi h0 h1
    obtain ⟨mat, so, ts, hm, hso, hts, hns, hpos, _, _, hsolen, hsorow, hoslen,
      _, hc0, hc1, _⟩ := wf_spec m hwf
    have hconf : m.is_configured = true := by
      simp [StateMachine.is_configured, hm, hso, hts]
    have hsl : si.toNat < so.length := by omega
    have hsrow : so.getD si.toNat [] ∈ so := getD_mem so _ [] hsl
    have hlen : (so.getD si.toNat []).length ≤ m.output_states.length := by
      rw [hsorow _ hsrow, hoslen]
    constructor
    · intro hrun hne
      obtain ⟨m2, sigs, hent, _, _, hnoEP, _, _⟩ :=
        enter_state_spec m so si hso h0 h1 hlen
      refine ⟨m2, sigs, hent, ?_, ?_⟩
      · rw [force_state_configured m i t hconf, ← hsi,
            if_pos ⟨h0, h1⟩, if_pos ⟨hrun, hne⟩]
        simp only [hent]
        rfl
      · have hz : sigs.countP isEP = 0 := by
          rw [List.countP_eq_length_filter, hnoEP]
          rfl
        simp [List.countP_cons, isEP, hz]
    · intro hcase
      have hnot : ¬(m.is_running = true ∧ si ≠ m.current_state) := by
        rintro ⟨hr, hn⟩
        rcases hcase with h | h
        · exact hn h
        · rw [h] at hr
          exact absurd hr (by simp)
      rw [force_state_configured m i t hconf, ← hsi, if_pos ⟨h0, h1⟩, if_neg hnot]

theorem c6_witness :
    ∃ m2 sigs, demoCfg._enter_state 1 = .ok (m2, sigs) ∧
      demoCfg.force_state 1 0 = .ok (m2, Signal.eventProcessed (-1) 0 1 :: sigs) ∧
      (Signal.eventProcessed (-1) 0 1 :: sigs).countP isEP = 1 :=
  ((c6_force_state_behavior demoCfg 1 0).2 (by decide) 1 rfl (by decide) (by decide)).1
    rfl (by decide)

/-- C8 (amended): `_add_extratimer` raises only when a timer with the
same name already exists; in every other situation — in particular after
user states have already been added — it succeeds, appending the timer
name, its event column, its duration and its default trigger.  (The
construction-order error lives in `_init_mat`, which only `__init__`
invokes; the `_init_mat()` call inside `_add_extratimer` is commented
out in the source.) -/
theorem c8_add_extratimer_only_dup_check (sm : StateMatrix) (nm : String) (d : ℚ) :
    (sm.extra_timers_names.contains nm = true →
      sm._add_extratimer nm d =
        .error ("Extra timer (" ++ nm ++ ") has already been defined.")) ∧
    (sm.extra_timers_names.contains nm = false →
      sm._add_extratimer nm d =
        .ok { sm with
              extra_timers_names := sm.extra_timers_names ++ [nm],
              events_dict := dictInsert sm.events_dict nm
                ((sm.n_input_events : Int) +
                  ((sm.extra_timers_names ++ [nm]).length : Int) - 1),
              extra_timers_duration := sm.extra_timers_duration ++ [d],
              extra_timers_triggers := sm.extra_timers_triggers ++ [0] }) := by
  constructor
  · intro h
    unfold StateMatrix._add_extratimer
    rw [h]
    rfl
  · intro h
    unfold StateMatrix._add_extratimer
    rw [h]
    rfl

/-- A builder holding one user-added state besides the automatic START
state, reached through the public construction API. -/
def c8chain : Except String StateMatrix := do
  let s ← StateMatrix.init [] [] []
  s.add_state "wait" PTime.inf [] [] [] [] 0

/-- C8 counterexample: on a builder that holds a user-added state
(two states total, `START` and `wait`), `_add_extratimer` does not raise
a construction-order error — it returns normally and installs the
timer's event column.  This refutes the claim that `_add_extratimer`
raises whenever a user state exists. -/
theorem c8_counterexample :
    (c8chain.map fun s => s.states.length) = .ok 2 ∧
      ((c8chain.bind fun s => s._add_extratimer "punish" 2).map
        fun s => (s.extra_timers_names, dictLookup s.events_dict "punish")) =
        .ok (["punish"], some 1) :=
  ⟨rfl, rfl⟩

lemma statesLookup_cons (a : String × Nat) (t : List (String × Nat)) (k : String) :
    statesLookup (a :: t) k = if a.1 == k then some a.2 else statesLookup t k := by
  by_cases h : a.1 == k <;> simp [statesLookup, List.find?, h]

lemma statesLookup_none_iff (d : List (String × Nat)) (k : String) :
    statesLookup d k = none ↔ k ∉ d.map Prod.fst := by
  induction d with
  | nil => simp [statesLookup]
  | cons a t ih =>
      rw [statesLookup_cons]
      by_cases h : a.1 == k
      · rw [if_pos h]
        simp only [beq_iff_eq] at h
        simp [h]
      · rw [if_neg h]
        have hb : a.1 ≠ k := by simpa using h
        rw [List.map_cons]
        constructor
        · intro hn hmem
          rcases List.mem_cons.mp hmem with h' | h'
          · exact hb h'.symm
          · exact (ih.mp hn) h'
        · intro hnm
          exact ih.mpr (fun hm => hnm (List.mem_cons_of_mem _ hm))

lemma statesLookup_append_of_none (d1 d2 : List (String × Nat)) (k : String)
    (h : statesLookup d1 k = none) :
    statesLookup (d1 ++ d2) k = statesLookup d2 k := by
  induction d1 with
  | nil => simp
  | cons a t ih =>
      rw [statesLookup_cons] at h
      rw [List.cons_append, statesLookup_cons]
      by_cases hak : a.1 == k
      · rw [if_pos hak] at h
        exact absurd h (by simp)
      · rw [if_neg hak] at h
        rw [if_neg hak]
        exact ih h

lemma statesLookup_append_self (d : List (String × Nat)) (k : String) (v : Nat)
    (h : statesLookup d k = none) : statesLookup (d ++ [(k, v)]) k = some v := by
  rw [statesLookup_append_of_none _ _ _ h, statesLookup_cons]
  simp

lemma count_eq_one_of_nodup_mem {l : List String} {a : String}
    (h1 : l.Nodup) (h2 : a ∈ l) : l.count a = 1 := by
  induction l with
  | nil => simp at h2
  | cons b t ih =>
      by_cases hab : a = b
      · subst hab
        rw [List.count_cons_self,
            List.count_eq_zero_of_not_mem (List.nodup_cons.mp h1).1]
      · have h2t : a ∈ t := by
          rcases List.mem_cons.mp h2 with h | h
          · exact absurd h hab
          · exact h
        rw [List.count_cons_of_ne hab]
        exact ih (List.nodup_cons.mp h1).2 h2t

/-- Reduction of `add_state` with no transitions, outputs or triggers,
on a name that is not yet a state. -/
lemma add_state_simple_eq (sm : StateMatrix) (name : String) (st : PTime)
    (h : statesLookup sm.states name = none) :
    sm.add_state name st [] [] [] [] 0 =
      .ok { sm._append_state_to_list name with
            state_matrix := (sm._append_state_to_list name).state_matrix.set
              sm.next_state_ind
              ((sm._append_state_to_list name)._make_default_row sm.next_state_ind),
            state_timers := (sm._append_state_to_list name).state_timers.set
              sm.next_state_ind st,
            state_outputs := (sm._append_state_to_list name).state_outputs.set
              sm.next_state_ind
              (List.replicate (sm._append_state_to_list name).n_outputs (-1)),
            serial_outputs := (sm._append_state_to_list name).serial_outputs.set
              sm.next_state_ind 0 } := by
  unfold StateMatrix.add_state StateMatrix.resolveState
  rw [h]
  rfl

/-- `_ensure_end_state` either leaves the builder untouched (END already
exists) or appends exactly one END state binding. -/
lemma ensureEnd_spec (sm sm' : StateMatrix) (h : sm._ensure_end_state = .ok sm') :
    ((statesLookup sm.states "END").isSome = true ∧ sm' = sm) ∨
    (statesLookup sm.states "END" = none ∧
      sm'.states = sm.states ++ [("END", sm.next_state_ind)]) := by
  unfold StateMatrix._ensure_end_state at h
  by_cases hE : (statesLookup sm.states "END").isSome
  · rw [if_pos hE] at h
    injection h with h
    exact Or.inl ⟨hE, h.symm⟩
  · rw [if_neg hE] at h
    have hnone : statesLookup sm.states "END" = none := by
      cases hc : statesLookup sm.states "END"
      · rfl
      · rw [hc] at hE
        exact absurd rfl hE
    rw [add_state_simple_eq sm "END" PTime.inf hnone] at h
    injection h with h
    refine Or.inr ⟨hnone, ?_⟩
    rw [← h]
    rfl

/-- After a successful `_ensure_end_state`, END is a known state. -/
lemma ensureEnd_end_isSome (sm sm' : StateMatrix) (h : sm._ensure_end_state = .ok sm') :
    (statesLookup sm'.states "END").isSome = true := by
  rcases ensureEnd_spec sm sm' h with ⟨hE, rfl⟩ | ⟨hnone, hst⟩
  · exact hE
  · rw [hst, statesLookup_append_self _ _ _ hnone]
    rfl

/-- `_ensure_end_state` is the identity once END exists. -/
lemma ensureEnd_of_isSome (sm : StateMatrix)
    (h : (statesLookup sm.states "END").isSome = true) :
    sm._ensure_end_state = .ok sm := by
  unfold StateMatrix._ensure_end_state
  rw [if_pos h]

lemma except_bind_ok {ε α β : Type} (a : α) (f : α → Except ε β) :
    ((Except.ok a : Except ε α) >>= f) = f a := rfl

lemma except_bind_error {ε α β : Type} (e : ε) (f : α → Except ε β) :
    ((Except.error e : Except ε α) >>= f) = Except.error e := rfl

/-- C9: with no mutation in between, each finalizer is idempotent —
calling it again returns the very same builder state and a bit-identical
array — and only one state is ever named END. -/
theorem c9_finalizers_idempotent (sm : StateMatrix)
    (hnd : (sm.states.map Prod.fst).Nodup) :
    (∀ sm1 a1, sm.get_matrix = .ok (sm1, a1) →
      sm1.get_matrix = .ok (sm1, a1) ∧ (sm1.states.map Prod.fst).count "END" = 1) ∧
    (∀ sm1 b1, sm.get_outputs = .ok (sm1, b1) → sm1.get_outputs = .ok (sm1, b1)) ∧
    (∀ sm1 c1, sm.get_state_timers = .ok (sm1, c1) →
      sm1.get_state_timers = .ok (sm1, c1)) := by
  refine ⟨?_, ?_, ?_⟩
  · intro sm1 a1 h
    unfold StateMatrix.get_matrix at h
    cases hE : sm._ensure_end_state with
    | error e =>
        rw [hE, except_bind_error] at h
        exact absurd h (by simp)
    | ok smE =>
        rw [hE, except_bind_ok] at h
        by_cases h1 : (!rect2 smE.state_matrix || smE.state_matrix.isEmpty) = true
        · rw [if_pos h1] at h
          exact absurd h (by simp)
        · rw [if_neg h1] at h
          by_cases h2 : (!(smE.state_matrix.all fun r => r.all fun v =>
              decide (0 ≤ v) && decide (v < (smE.state_matrix.length : Int)))) = true
          · rw [if_pos h2] at h
            exact absurd h (by simp)
          · rw [if_neg h2] at h
            injection h with h
            obtain ⟨h3, h4⟩ := Prod.mk.inj h
            subst h3
            subst h4
            constructor
            · unfold StateMatrix.get_matrix
              rw [ensureEnd_of_isSome _ (ensureEnd_end_isSome _ _ hE), except_bind_ok,
                  if_neg h1, if_neg h2]
            · rcases ensureEnd_spec _ _ hE with ⟨hS, heq⟩ | ⟨hN, hst⟩
              · rw [heq]
                have hne : ¬ statesLookup sm.states "END" = none := by
                  intro hh
                  rw [hh] at hS
                  exact absurd hS (by simp)
                have hmem : "END" ∈ sm.states.map Prod.fst := by
                  by_contra hc
                  exact hne ((statesLookup_none_iff _ _).mpr hc)
                exact count_eq_one_of_nodup_mem hnd hmem
              · rw [hst, List.map_append, List.count_append,
                    List.count_eq_zero_of_not_mem ((statesLookup_none_iff _ _).mp hN)]
                simp
  · intro sm1 b1 h
    unfold StateMatrix.get_outputs at h
    cases hE : sm._ensure_end_state with
    | error e =>
        rw [hE, except_bind_error] at h
        exact absurd h (by simp)
    | ok smE =>
        rw [hE, except_bind_ok] at h
        have hE2 := ensureEnd_of_isSome smE (ensureEnd_end_isSome _ _ hE)
        by_cases h1 : smE.state_outputs.isEmpty = true
        · rw [if_pos h1] at h
          injection h with h
          obtain ⟨h3, h4⟩ := Prod.mk.inj h
          subst h3
          subst h4
          unfold StateMatrix.get_outputs
          rw [hE2, except_bind_ok, if_pos h1]
        · rw [if_neg h1] at h
          by_cases h2 : smE.outputsActual.isEmpty = true
          · rw [if_pos h2] at h
            injection h with h
            obtain ⟨h3, h4⟩ := Prod.mk.inj h
            subst h3
            subst h4
            unfold StateMatrix.get_outputs
            rw [hE2, except_bind_ok, if_neg h1, if_pos h2]
          · rw [if_neg h2] at h
            by_cases h3 : (!rect2 smE.outputsActual) = true
            · rw [if_pos h3] at h
              exact absurd h (by simp)
            · rw [if_neg h3] at h
              by_cases h4 : (!(smE.outputsActual.all fun r => r.all fun v =>
                  v == -1 || v == 0 || v == 1)) = true
              · rw [if_pos h4] at h
                exact absurd h (by simp)
              · rw [if_neg h4] at h
                injection h with h
                obtain ⟨h5, h6⟩ := Prod.mk.inj h
                subst h5
                subst h6
                unfold StateMatrix.get_outputs
                rw [hE2, except_bind_ok, if_neg h1, if_neg h2, if_neg h3, if_neg h4]
  · intro sm1 c1 h
    unfold StateMatrix.get_state_timers at h
    cases hE : sm._ensure_end_state with
    | error e =>
        rw [hE, except_bind_error] at h
        exact absurd h (by simp)
    | ok smE =>
        rw [hE, except_bind_ok] at h
        have hE2 := ensureEnd_of_isSome smE (ensureEnd_end_isSome _ _ hE)
        by_cases h1 : smE.state_timers.isEmpty = true
        · rw [if_pos h1] at h
          injection h with h
          obtain ⟨h3, h4⟩ := Prod.mk.inj h
          subst h3
          subst h4
          unfold StateMatrix.get_state_timers
          rw [hE2, except_bind_ok, if_pos h1]
        · rw [if_neg h1] at h
          injection h with h
          obtain ⟨h3, h4⟩ := Prod.mk.inj h
          subst h3
          subst h4
          unfold StateMatrix.get_state_timers
          rw [hE2, except_bind_ok, if_neg h1]

/-- A small builder reached through `__init__` alone, and the result of
its first `get_matrix` call (which appends the END state). -/
def smDemo : StateMatrix :=
  match StateMatrix.init [] [] [] with
  | .ok s => s
  | .error _ => default

def smDemoEnd : StateMatrix :=
  match smDemo.get_matrix with
  | .ok p => p.1
  | .error _ => smDemo

theorem c9_witness :
    smDemoEnd.get_matrix = .ok (smDemoEnd, [[1], [1]]) ∧
      (smDemoEnd.states.map Prod.fst).count "END" = 1 :=
  (c9_finalizers_idempotent smDemo (by decide)).1 smDemoEnd [[1], [1]] (by rfl)

lemma getD0_append {α : Type} (l r : List α) (d : α) (h : 1 ≤ l.length) :
    (l ++ r).getD 0 d = l.getD 0 d := by
  cases l with
  | nil => simp at h
  | cons a t => rfl

lemma getD0_set {α : Type} (l : List α) (i : Nat) (x d : α) (h : i ≠ 0) :
    (l.set i x).getD 0 d = l.getD 0 d := by
  cases l with
  | nil => rfl
  | cons a t =>
      cases i with
      | zero => exact absurd rfl h
      | succ n => rfl

lemma getD_set_self {α : Type} (l : List α) (i : Nat) (x d : α) (h : i < l.length) :
    (l.set i x).getD i d = x := by
  induction l generalizing i with
  | nil => simp at h
  | cons a t ih =>
      cases i with
      | zero => rfl
      | succ n => exact ih n (by simpa using h)

lemma statesLookup_append_of_some (d1 d2 : List (String × Nat)) (k : String) (v : Nat)
    (h : statesLookup d1 k = some v) :
    statesLookup (d1 ++ d2) k = some v := by
  induction d1 with
  | nil => simp [statesLookup] at h
  | cons a t ih =>
      rw [statesLookup_cons] at h
      rw [List.cons_append, statesLookup_cons]
      by_cases hak : a.1 == k
      · rw [if_pos hak] at h
        rw [if_pos hak]
        exact h
      · rw [if_neg hak] at h
        rw [if_neg hak]
        exact ih h

lemma statesLookup_some_mem (d : List (String × Nat)) (k : String) (v : Nat)
    (h : statesLookup d k = some v) : (k, v) ∈ d := by
  induction d with
  | nil => simp [statesLookup] at h
  | cons a t ih =>
      rw [statesLookup_cons] at h
      by_cases hak : a.1 == k
      · rw [if_pos hak] at h
        injection h with h
        have ha1 : a.1 = k := by simpa using hak
        have : a = (k, v) := by
          cases a
          simp_all
        rw [← this]
        exact List.mem_cons_self _ _
      · rw [if_neg hak] at h
        exact List.mem_cons_of_mem _ (ih h)

lemma dictLookup_cons (a : String × Int) (t : List (String × Int)) (k : String) :
    dictLookup (a :: t) k = if a.1 == k then some a.2 else dictLookup t k := by
  by_cases h : a.1 == k <;> simp [dictLookup, List.find?, h]

lemma dictLookup_insert_self (d : List (String × Int)) (k : String) (v : Int) :
    dictLookup (dictInsert d k v) k = some v := by
  induction d with
  | nil => simp [dictInsert, dictLookup_cons]
  | cons a t ih =>
      unfold dictInsert
      by_cases h : a.1 == k
      · rw [if_pos h]
        rw [dictLookup_cons]
        simp only [if_pos h]
      · rw [if_neg h]
        rw [dictLookup_cons, if_neg h]
        exact ih

lemma dictLookup_insert_ne (d : List (String × Int)) (k : String) (v : Int) (k' : String)
    (h : k' ≠ k) :
    dictLookup (dictInsert d k v) k' = dictLookup d k' := by
  induction d with
  | nil =>
      have : (k == k') = false := by
        simp
        exact fun hh => h hh.symm
      simp [dictInsert, dictLookup_cons, dictLookup, this]
  | cons a t ih =>
      unfold dictInsert
      by_cases hak : a.1 == k
      · rw [if_pos hak]
        rw [dictLookup_cons, dictLookup_cons]
        by_cases hak' : a.1 == k'
        · exfalso
          apply h
          have h1 : a.1 = k := by simpa using hak
          have h2 : a.1 = k' := by simpa using hak'
          rw [← h1, ← h2]
        · rw [if_neg hak', if_neg hak']
      · rw [if_neg hak]
        rw [dictLookup_cons, dictLookup_cons]
        by_cases hak' : a.1 == k'
        · rw [if_pos hak', if_pos hak']
        · rw [if_neg hak', if_neg hak']
          exact ih

lemma dictInsert_length_of_none (d : List (String × Int)) (k : String) (v : Int)
    (h : dictLookup d k = none) :
    (dictInsert d k v).length = d.length + 1 := by
  induction d with
  | nil => rfl
  | cons a t ih =>
      rw [dictLookup_cons] at h
      by_cases hak : a.1 == k
      · rw [if_pos hak] at h
        exact absurd h (by simp)
      · rw [if_neg hak] at h
        unfold dictInsert
        rw [if_neg hak]
        simp [ih h]

lemma append_in_ne_tup (s : String) : s ++ "in" ≠ "Tup" := by
  intro h
  have hd : s.data ++ ['i', 'n'] = ['T', 'u', 'p'] := congrArg String.data h
  have hlen : s.data.length + 2 = 3 := by
    have := congrArg List.length hd
    simpa using this
  obtain ⟨c, hc⟩ := List.length_eq_one.mp (by omega : s.data.length = 1)
  rw [hc] at hd
  have : ('i' : Char) = 'u' := by
    injection hd with h1 h2
    injection h2 with h3 h4
  exact absurd this (by decide)

lemma append_out_ne_tup (s : String) : s ++ "out" ≠ "Tup" := by
  intro h
  have hd : s.data ++ ['o', 'u', 't'] = ['T', 'u', 'p'] := congrArg String.data h
  have hlen : s.data.length + 3 = 3 := by
    have := congrArg List.length hd
    simpa using this
  have hnil : s.data = [] := List.length_eq_zero.mp (by omega)
  rw [hnil] at hd
  have : ('o' : Char) = 'T' := by injection hd
  exact absurd this (by decide)

lemma buildEvents_no_tup (ins : List (String × Int)) :
    dictLookup (buildEvents ins) "Tup" = none := by
  suffices h : ∀ acc, dictLookup acc "Tup" = none →
      dictLookup (ins.foldl (fun ev p =>
        dictInsert (dictInsert ev (p.1 ++ "in") (2 * p.2)) (p.1 ++ "out") (2 * p.2 + 1))
        acc) "Tup" = none by
    exact h [] rfl
  induction ins with
  | nil => exact fun acc hacc => hacc
  | cons p rest ih =>
      intro acc hacc
      rw [List.foldl_cons]
      apply ih
      rw [dictLookup_insert_ne _ _ _ _ (Ne.symm (append_out_ne_tup p.1)),
          dictLookup_insert_ne _ _ _ _ (Ne.symm (append_in_ne_tup p.1))]
      exact hacc

/-- The START-state invariant: state 0 is named START, has a
zero-duration timer, and its row maps the `Tup` event to state 1. -/
def StartInv (sm : StateMatrix) : Prop :=
  statesLookup sm.states "START" = some 0 ∧
  (∀ p ∈ sm.states, p.2 = 0 → p.1 = "START") ∧
  (∀ p ∈ sm.states, p.2 < sm.next_state_ind) ∧
  1 ≤ sm.next_state_ind ∧
  1 ≤ sm.state_matrix.length ∧
  1 ≤ sm.state_timers.length ∧
  sm.state_timers.getD 0 PTime.inf = PTime.fin 0 ∧
  ∃ tup : Int, dictLookup sm.events_dict "Tup" = some tup ∧ 0 ≤ tup ∧
    (sm.state_matrix.getD 0 []).getD tup.toNat 0 = 1

lemma appendState_inv (sm : StateMatrix) (nm : String) (hinv : StartInv sm) :
    StartInv (sm._append_state_to_list nm) ∧
    (sm._append_state_to_list nm).next_state_ind = sm.next_state_ind + 1 ∧
    (sm._append_state_to_list nm).states = sm.states ++ [(nm, sm.next_state_ind)] := by
  obtain ⟨hS, hZ, hB, hN, hM, hT, hT0, tup, hTup, hTnn, hRow⟩ := hinv
  refine ⟨⟨?_, ?_, ?_, ?_, ?_, ?_, ?_, tup, ?_, hTnn, ?_⟩, rfl, rfl⟩
  · exact statesLookup_append_of_some _ _ _ _ hS
  · intro p hp hp0
    rcases List.mem_append.mp hp with hp | hp
    · exact hZ p hp hp0
    · simp at hp
      rw [hp] at hp0
      simp at hp0
      exact absurd hp0 (by omega)
  · intro p hp
    show p.2 < sm.next_state_ind + 1
    rcases List.mem_append.mp hp with hp | hp
    · have := hB p hp
      omega
    · simp at hp
      rw [hp]
      show sm.next_state_ind < sm.next_state_ind + 1
      omega
  · show 1 ≤ sm.next_state_ind + 1
    omega
  · show 1 ≤ ((sm.state_matrix ++
      List.replicate (sm.next_state_ind + 1 - sm.state_matrix.length) []).set
        sm.next_state_ind (sm._make_default_row sm.next_state_ind)).length
    simp
    omega
  · show 1 ≤ (sm.state_timers ++
      List.replicate (sm.next_state_ind + 1 - sm.state_matrix.length) PTime.inf).length
    simp
    omega
  · show (sm.state_timers ++
      List.replicate (sm.next_state_ind + 1 - sm.state_matrix.length) PTime.inf).getD 0
        PTime.inf = PTime.fin 0
    rw [getD0_append _ _ _ hT]
    exact hT0
  · exact hTup
  · show (((sm.state_matrix ++
      List.replicate (sm.next_state_ind + 1 - sm.state_matrix.length)
        ([] : List Int)).set
        sm.next_state_ind (sm._make_default_row sm.next_state_ind)).getD 0
          ([] : List Int)).getD tup.toNat 0 = 1
    rw [getD0_set _ _ _ _ (by omega), getD0_append _ _ _ hM]
    exact hRow

lemma resolveState_inv (sm : StateMatrix) (nm : String) (hinv : StartInv sm) :
    StartInv (sm.resolveState nm).1 ∧
    (nm ≠ "START" → (sm.resolveState nm).2 ≠ 0) := by
  unfold StateMatrix.resolveState
  cases hl : statesLookup sm.states nm with
  | some i =>
      refine ⟨hinv, ?_⟩
      intro hne hi0
      exact hne (hinv.2.1 (nm, i) (statesLookup_some_mem _ _ _ hl) hi0)
  | none =>
      refine ⟨(appendState_inv sm nm hinv).1, ?_⟩
      intro _ hi0
      have := hinv.2.2.2.1
      simp at hi0
      omega

lemma applyTransitions_inv :
    ∀ (ts : List (String × String)) (sm : StateMatrix) (row : List Int)
      (sm' : StateMatrix) (row' : List Int),
      StartInv sm → applyTransitions sm row ts = .ok (sm', row') → StartInv sm' := by
  intro ts
  induction ts with
  | nil =>
      intro sm row sm' row' hinv h
      unfold applyTransitions at h
      injection h with h
      obtain ⟨h1, _⟩ := Prod.mk.inj h
      rw [← h1]
      exact hinv
  | cons p rest ih =>
      intro sm row sm' row' hinv h
      obtain ⟨ev, tgt⟩ := p
      unfold applyTransitions at h
      cases hdl : dictLookup (sm.resolveState tgt).1.events_dict ev with
      | none =>
          simp only [hdl] at h
          exact absurd h (by simp)
      | some col =>
          simp only [hdl] at h
          cases hps : pySetInt row col ((sm.resolveState tgt).2 : Int) with
          | error e =>
              simp only [hps] at h
              exact absurd h (by simp)
          | ok row1 =>
              simp only [hps] at h
              exact ih _ _ _ _ (resolveState_inv sm tgt hinv).1 h

lemma add_state_inv (sm sm' : StateMatrix) (name : String) (st : PTime)
    (trans : List (String × String)) (onL offL trigL : List String) (ser : Int)
    (hname : name ≠ "START") (hinv : StartInv sm)
    (h : sm.add_state name st trans onL offL trigL ser = .ok sm') : StartInv sm' := by
  unfold StateMatrix.add_state at h
  cases hA : applyTransitions (sm.resolveState name).1
      ((sm.resolveState name).1._make_default_row (sm.resolveState name).2) trans with
  | error e =>
      rw [hA] at h
      exact absurd h (by simp)
  | ok pr =>
      obtain ⟨sm2, new_row⟩ := pr
      simp only [hA] at h
      cases hB : setOutputsVals sm2 (List.replicate sm2.n_outputs (-1)) onL 1 with
      | error e =>
          simp only [hB] at h
          exact absurd h (by simp)
      | ok souts1 =>
          simp only [hB] at h
          cases hC : setOutputsVals sm2 souts1 offL 0 with
          | error e =>
              simp only [hC] at h
              exact absurd h (by simp)
          | ok souts2 =>
              simp only [hC] at h
              cases hD : setTriggers sm2 sm2.extra_timers_triggers
                  (sm.resolveState name).2 trigL with
              | error e =>
                  simp only [hD] at h
                  exact absurd h (by simp)
              | ok trig2 =>
                  simp only [hD] at h
                  injection h with h
                  obtain ⟨hres, hzero⟩ := resolveState_inv sm name hinv
                  have hinv2 : StartInv sm2 := applyTransitions_inv _ _ _ _ _ hres hA
                  obtain ⟨hS, hZ, hB2, hN, hM, hT, hT0, tup, hTup, hTnn, hRow⟩ := hinv2
                  have hne0 : (sm.resolveState name).2 ≠ 0 := hzero hname
                  rw [← h]
                  exact ⟨hS, hZ, hB2, hN,
                    by simpa using hM,
                    by simpa using hT,
                    by rw [getD0_set _ _ _ _ hne0]; exact hT0,
                    tup, hTup, hTnn,
                    by rw [getD0_set _ _ _ _ hne0]; exact hRow⟩

/-- The builder state during `__init__`, before `_init_mat` runs: no
states yet, and `Tup` is bound to a column that fits inside a default
row. -/
def PreInv (sm : StateMatrix) : Prop :=
  sm.states = [] ∧ sm.next_state_ind = 0 ∧ sm.state_matrix = [] ∧ sm.state_timers = [] ∧
  ∃ tup : Int, dictLookup sm.events_dict "Tup" = some tup ∧ 0 ≤ tup ∧
    tup < (sm.n_input_events : Int) + (sm.extra_timers_names.length : Int)

lemma initBase_preinv (ins outs : List (String × Int)) :
    PreInv (StateMatrix.initBase ins outs) := by
  refine ⟨rfl, rfl, rfl, rfl, ((buildEvents ins).length : Int), ?_, by positivity, ?_⟩
  · show dictLookup (dictInsert
      (dictInsert (buildEvents ins) "Tup" ((buildEvents ins).length : Int))
      "Forced" (-1)) "Tup" = some ((buildEvents ins).length : Int)
    rw [dictLookup_insert_ne _ _ _ _ (by decide : "Tup" ≠ "Forced")]
    exact dictLookup_insert_self _ _ _
  · show ((buildEvents ins).length : Int) <
      ((dictInsert (buildEvents ins) "Tup" ((buildEvents ins).length : Int)).length : Int) +
        (([] : List String).length : Int)
    rw [dictInsert_length_of_none _ _ _ (buildEvents_no_tup ins)]
    push_cast
    omega

lemma add_extratimer_preinv (sm sm' : StateMatrix) (nm : String) (d : ℚ)
    (hp : PreInv sm) (h : sm._add_extratimer nm d = .ok sm') : PreInv sm' := by
  obtain ⟨h1, h2, h3, h4, tup, h5, h6, h7⟩ := hp
  unfold StateMatrix._add_extratimer at h
  by_cases hc : sm.extra_timers_names.contains nm = true
  · rw [if_pos hc] at h
    exact absurd h (by simp)
  · rw [if_neg hc] at h
    injection h with h
    rw [← h]
    refine ⟨h1, h2, h3, h4, ?_⟩
    by_cases hnm : nm = "Tup"
    · subst hnm
      refine ⟨(sm.n_input_events : Int) +
        ((sm.extra_timers_names ++ ["Tup"]).length : Int) - 1,
        dictLookup_insert_self _ _ _, ?_, ?_⟩
      · show (0 : Int) ≤ (sm.n_input_events : Int) +
          ((sm.extra_timers_names ++ ["Tup"]).length : Int) - 1
        rw [List.length_append]
        push_cast
        omega
      · show (sm.n_input_events : Int) +
          ((sm.extra_timers_names ++ ["Tup"]).length : Int) - 1 <
            (sm.n_input_events : Int) + ((sm.extra_timers_names ++ ["Tup"]).length : Int)
        omega
    · refine ⟨tup, ?_, h6, ?_⟩
      · show dictLookup (dictInsert sm.events_dict nm
          ((sm.n_input_events : Int) +
            ((sm.extra_timers_names ++ [nm]).length : Int) - 1)) "Tup" = some tup
        rw [dictLookup_insert_ne _ _ _ _ (fun hh => hnm hh.symm)]
        exact h5
      · show tup < (sm.n_input_events : Int) +
          ((sm.extra_timers_names ++ [nm]).length : Int)
        rw [List.length_append]
        push_cast
        omega

lemma foldl_extratimers_preinv (ets : List String) :
    ∀ sm sm', PreInv sm →
      ets.foldlM (fun s nm => s._add_extratimer nm 0) sm = .ok sm' → PreInv sm' := by
  induction ets with
  | nil =>
      intro sm sm' hp h
      injection h with h
      rw [← h]
      exact hp
  | cons nm rest ih =>
      intro sm sm' hp h
      rw [List.foldlM_cons] at h
      cases hA : sm._add_extratimer nm 0 with
      | error e =>
          rw [hA, except_bind_error] at h
          exact absurd h (by simp)
      | ok s1 =>
          rw [hA, except_bind_ok] at h
          exact ih s1 sm' (add_extratimer_preinv sm s1 nm 0 hp hA) h

lemma init_mat_startinv (sm sm' : StateMatrix) (hp : PreInv sm)
    (h : sm._init_mat = .ok sm') : StartInv sm' := by
  obtain ⟨hst, hni, hmx, htm, tup, hTup, h0t, hbt⟩ := hp
  unfold StateMatrix._init_mat at h
  rw [if_neg (by rw [hmx]; simp)] at h
  have hlook : statesLookup sm.states "START" = none := by
    rw [hst]
    rfl
  rw [add_state_simple_eq sm "START" (PTime.fin 0) hlook, except_bind_ok] at h
  injection h with h
  rw [← h]
  have htupNat : tup.toNat < sm.n_input_events + sm.extra_timers_names.length := by
    omega
  unfold StartInv StateMatrix._force_transition StateMatrix._append_state_to_list
    StateMatrix._make_default_row
  simp only [hst, hni, hmx, htm, hTup]
  simp only [List.nil_append, Nat.zero_add, Nat.sub_zero, List.length_nil]
  refine ⟨?_, ?_, ?_, ?_, ?_, ?_, ?_, tup, ?_, h0t, ?_⟩
  · rfl
  · intro p hp hp0
    simp at hp
    rw [hp]
  · intro p hp
    simp at hp
    rw [hp]
    omega
  · omega
  · simp
  · simp
  · rfl
  · rfl
  · simp only [show (List.replicate 1 ([] : List Int)) = [[]] from rfl,
      List.set_cons_zero, Int.toNat_zero, List.getD_cons_zero]
    rw [getD_set_self _ _ _ _ (by simpa using htupNat)]

lemma init_startinv (ins outs : List (String × Int)) (ets : List String) (sm : StateMatrix)
    (h : StateMatrix.init ins outs ets = .ok sm) : StartInv sm := by
  unfold StateMatrix.init at h
  cases hF : ets.foldlM (fun s nm => s._add_extratimer nm 0) (StateMatrix.initBase ins outs) with
  | error e =>
      rw [hF, except_bind_error] at h
      exact absurd h (by simp)
  | ok sm1 =>
      rw [hF, except_bind_ok] at h
      exact init_mat_startinv sm1 sm
        (foldl_extratimers_preinv ets _ _ (initBase_preinv ins outs) hF) h

lemma set_extratimer_inv (sm sm' : StateMatrix) (nm : String) (d : ℚ)
    (hinv : StartInv sm) (h : sm.set_extratimer nm d = .ok sm') : StartInv sm' := by
  unfold StateMatrix.set_extratimer at h
  cases hf : sm.extra_timers_names.findIdx? (fun x => x == nm) with
  | none =>
      simp only [hf] at h
      exact absurd h (by simp)
  | some i =>
      simp only [hf] at h
      injection h with h
      rw [← h]
      exact hinv

lemma ensureEnd_inv (sm sm' : StateMatrix) (hinv : StartInv sm)
    (h : sm._ensure_end_state = .ok sm') : StartInv sm' := by
  unfold StateMatrix._ensure_end_state at h
  by_cases hE : (statesLookup sm.states "END").isSome
  · rw [if_pos hE] at h
    injection h with h
    rw [← h]
    exact hinv
  · rw [if_neg hE] at h
    exact add_state_inv sm sm' "END" PTime.inf [] [] [] [] 0 (by decide) hinv h

lemma get_matrix_ensure (sm sm' : StateMatrix) (a : List (List Int))
    (h : sm.get_matrix = .ok (sm', a)) : sm._ensure_end_state = .ok sm' := by
  unfold StateMatrix.get_matrix at h
  cases hE : sm._ensure_end_state with
  | error e =>
      rw [hE, except_bind_error] at h
      exact absurd h (by simp)
  | ok smE =>
      rw [hE, except_bind_ok] at h
      by_cases h1 : (!rect2 smE.state_matrix || smE.state_matrix.isEmpty) = true
      · rw [if_pos h1] at h
        exact absurd h (by simp)
      · rw [if_neg h1] at h
        by_cases h2 : (!(smE.state_matrix.all fun r => r.all fun v =>
            decide (0 ≤ v) && decide (v < (smE.state_matrix.length : Int)))) = true
        · rw [if_pos h2] at h
          exact absurd h (by simp)
        · rw [if_neg h2] at h
          injection h with h
          obtain ⟨h3, _⟩ := Prod.mk.inj h
          rw [h3]

lemma get_outputs_ensure (sm sm' : StateMatrix) (b : List (List Int))
    (h : sm.get_outputs = .ok (sm', b)) : sm._ensure_end_state = .ok sm' := by
  unfold StateMatrix.get_outputs at h
  cases hE : sm._ensure_end_state with
  | error e =>
      rw [hE, except_bind_error] at h
      exact absurd h (by simp)
  | ok smE =>
      rw [hE, except_bind_ok] at h
      by_cases h1 : smE.state_outputs.isEmpty = true
      · rw [if_pos h1] at h
        injection h with h
        obtain ⟨h3, _⟩ := Prod.mk.inj h
        rw [h3]
      · rw [if_neg h1] at h
        by_cases h2 : smE.outputsActual.isEmpty = true
        · rw [if_pos h2] at h
          injection h with h
          obtain ⟨h3, _⟩ := Prod.mk.inj h
          rw [h3]
        · rw [if_neg h2] at h
          by_cases h3 : (!rect2 smE.outputsActual) = true
          · rw [if_pos h3] at h
            exact absurd h (by simp)
          · rw [if_neg h3] at h
            by_cases h4 : (!(smE.outputsActual.all fun r => r.all fun v =>
                v == -1 || v == 0 || v == 1)) = true
            · rw [if_pos h4] at h
              exact absurd h (by simp)
            · rw [if_neg h4] at h
              injection h with h
              obtain ⟨h5, _⟩ := Prod.mk.inj h
              rw [h5]

lemma get_state_timers_ensure (sm sm' : StateMatrix) (c : List PTime)
    (h : sm.get_state_timers = .ok (sm', c)) : sm._ensure_end_state = .ok sm' := by
  unfold StateMatrix.get_state_timers at h
  cases hE : sm._ensure_end_state with
  | error e =>
      rw [hE, except_bind_error] at h
      exact absurd h (by simp)
  | ok smE =>
      rw [hE, except_bind_ok] at h
      by_cases h1 : smE.state_timers.isEmpty = true
      · rw [if_pos h1] at h
        injection h with h
        obtain ⟨h3, _⟩ := Prod.mk.inj h
        rw [h3]
      · rw [if_neg h1] at h
        injection h with h
        obtain ⟨h3, _⟩ := Prod.mk.inj h
        rw [h3]

/-- Builder states reachable from `__init__` through `add_state` on
names other than START, `set_extratimer`, and the three finalizer
accessors (which mutate the builder by appending END). -/
inductive BuilderReach : StateMatrix → Prop where
  | init (inputs outputs : List (String × Int)) (ets : List String) (sm : StateMatrix) :
      StateMatrix.init inputs outputs ets = .ok sm → BuilderReach sm
  | addState (sm sm' : StateMatrix) (name : String) (st : PTime)
      (trans : List (String × String)) (onL offL trigL : List String) (ser : Int) :
      BuilderReach sm → name ≠ "START" →
      sm.add_state name st trans onL offL trigL ser = .ok sm' → BuilderReach sm'
  | setExtratimer (sm sm' : StateMatrix) (name : String) (d : ℚ) :
      BuilderReach sm → sm.set_extratimer name d = .ok sm' → BuilderReach sm'
  | getMatrix (sm sm' : StateMatrix) (a : List (List Int)) :
      BuilderReach sm → sm.get_matrix = .ok (sm', a) → BuilderReach sm'
  | getOutputs (sm sm' : StateMatrix) (b : List (List Int)) :
      BuilderReach sm → sm.get_outputs = .ok (sm', b) → BuilderReach sm'
  | getStateTimers (sm sm' : StateMatrix) (c : List PTime) :
      BuilderReach sm → sm.get_state_timers = .ok (sm', c) → BuilderReach sm'

lemma builderReach_startinv (sm : StateMatrix) (h : BuilderReach sm) : StartInv sm := by
  induction h with
  | init ins outs ets sm h => exact init_startinv ins outs ets sm h
  | addState sm sm' name st trans onL offL trigL ser _ hname h ih =>
      exact add_state_inv sm sm' name st trans onL offL trigL ser hname ih h
  | setExtratimer sm sm' name d _ h ih => exact set_extratimer_inv sm sm' name d ih h
  | getMatrix sm sm' a _ h ih => exact ensureEnd_inv sm sm' ih (get_matrix_ensure sm sm' a h)
  | getOutputs sm sm' b _ h ih => exact ensureEnd_inv sm sm' ih (get_outputs_ensure sm sm' b h)
  | getStateTimers sm sm' c _ h ih =>
      exact ensureEnd_inv sm sm' ih (get_state_timers_ensure sm sm' c h)

/-- C7 (amended): for every builder reachable from `__init__` through
`add_state` on names other than START, `set_extratimer`, and the
finalizer accessors, state 0 is named START, has a zero-duration state
timer, and its transition row maps the `Tup` event to state 1.
(`reset_transitions`, excluded here, breaks this: it resets state 0 —
like every state — to an infinite timer and an all-self-loop row.) -/
theorem c7_start_state_invariant (sm : StateMatrix) (h : BuilderReach sm) :
    statesLookup sm.states "START" = some 0 ∧
    (∀ p ∈ sm.states, p.2 = 0 → p.1 = "START") ∧
    sm.state_timers.getD 0 PTime.inf = PTime.fin 0 ∧
    ∃ tup : Int, dictLookup sm.events_dict "Tup" = some tup ∧ 0 ≤ tup ∧
      (sm.state_matrix.getD 0 []).getD tup.toNat 0 = 1 := by
  obtain ⟨h1, h2, _, _, _, _, h7, tup, h8, h9, h10⟩ := builderReach_startinv sm h
  exact ⟨h1, h2, h7, tup, h8, h9, h10⟩

theorem c7_witness :
    statesLookup smDemo.states "START" = some 0 ∧
    (∀ p ∈ smDemo.states, p.2 = 0 → p.1 = "START") ∧
    smDemo.state_timers.getD 0 PTime.inf = PTime.fin 0 ∧
    ∃ tup : Int, dictLookup smDemo.events_dict "Tup" = some tup ∧ 0 ≤ tup ∧
      (smDemo.state_matrix.getD 0 []).getD tup.toNat 0 = 1 :=
  c7_start_state_invariant smDemo (BuilderReach.init [] [] [] smDemo (by rfl))

/-- C7 counterexample: on the freshly constructed builder, START (state
0) does have a zero timer and `Tup -> 1`; but after the builder
operation `reset_transitions` — included in the claim's list of
operations, and described by the spec itself as restoring *every* state
to self-loop/infinite-timer — state 0's timer is infinite and its `Tup`
entry is the self-loop 0, not 1.  This refutes the claim as stated. -/
theorem c7_counterexample :
    dictLookup smDemo.events_dict "Tup" = some 0 ∧
    smDemo.state_timers.getD 0 PTime.inf = PTime.fin 0 ∧
    (smDemo.state_matrix.getD 0 []).getD 0 0 = 1 ∧
    (smDemo.reset_transitions).state_timers.getD 0 PTime.inf = PTime.inf ∧
    ((smDemo.reset_transitions).state_matrix.getD 0 []).getD 0 0 = 0 :=
  ⟨rfl, rfl, rfl, rfl, rfl⟩

theorem c8_witness :
    smDemo.extra_timers_names.contains "pun" = false ∧
      smDemo._add_extratimer "pun" 2 =
        .ok { smDemo with
              extra_timers_names := smDemo.extra_timers_names ++ ["pun"],
              events_dict := dictInsert smDemo.events_dict "pun"
                ((smDemo.n_input_events : Int) +
                  ((smDemo.extra_timers_names ++ ["pun"]).length : Int) - 1),
              extra_timers_duration := smDemo.extra_timers_duration ++ [2],
              extra_timers_triggers := smDemo.extra_timers_triggers ++ [0] } :=
  ⟨rfl, (c8_add_extratimer_only_dup_check smDemo "pun" 2).2 rfl⟩
